import Mathlib

/-!
Verification of the spacegame simulation kernel.

Shallow embedding of the event-driven systems in `src/sys.rs` and the
component types in `src/components.rs`.  Rust `unwrap`/`assert!`/index
panics are modelled by `Option`-valued handlers returning `none`;
a returned `some w` is a completed (possibly no-op) pass.  Entity ids are
`Nat`; component storages are functions `Nat → Option _` (presence of a
`some` value means the entity carries every component of that query) or
lists when iteration order matters.  Machine integers (`i32`) are modelled
as `Int`: no arithmetic in the verified paths approaches the `i32` range.
-/

namespace Spacegame

/-- Character used to render apostrophes inside narration strings. -/
def apos : String := String.singleton (Char.ofNat 39)

/-- `Position` from components.rs: integer (x, y, z) on the tile grid. -/
structure Position where
  x : Int
  y : Int
  z : Int
  deriving DecidableEq, Repr

/-- `PosnOffset` from components.rs: a small grid adjustment. -/
structure PosnOffset where
  x_diff : Int
  y_diff : Int
  z_diff : Int
  deriving DecidableEq, Repr

/-- `impl Sub<Position> for Position` (components.rs): componentwise difference. -/
def Position.sub (a b : Position) : PosnOffset :=
  { x_diff := a.x - b.x, y_diff := a.y - b.y, z_diff := a.z - b.z }

/-- `impl Add<(i32,i32,i32)> for Position` (components.rs). -/
def Position.addT (p : Position) (t : Int × Int × Int) : Position :=
  { x := p.x + t.1, y := p.y + t.2.1, z := p.z + t.2.2 }

/-- The compass-rose `Direction` type, restricted to the ten variants that
`movement_system`'s match statement handles (eight compass points plus
vertical). -/
inductive Direction where
  | N | NW | W | SW | S | SE | E | NE | UP | DOWN
  deriving DecidableEq, Repr

/-- `impl Display for Direction` (components.rs). -/
def Direction.toText : Direction → String
  | .N => "North"
  | .NW => "Northwest"
  | .W => "West"
  | .SW => "Southwest"
  | .S => "South"
  | .SE => "Southeast"
  | .E => "East"
  | .NE => "Northeast"
  | .UP => "Up"
  | .DOWN => "Down"

/-- The (xdiff, ydiff, zdiff) unit delta assigned to each direction by the
match statement in `movement_system` (sys.rs lines 169-180). -/
def moveDelta : Direction → Int × Int × Int
  | .N => (0, -1, 0)
  | .NW => (-1, -1, 0)
  | .W => (-1, 0, 0)
  | .SW => (-1, 1, 0)
  | .S => (0, 1, 0)
  | .SE => (1, 1, 0)
  | .E => (1, 0, 0)
  | .NE => (1, -1, 0)
  | .UP => (0, 0, 1)
  | .DOWN => (0, 0, -1)

/-- Packages a movement delta as a `PosnOffset`, the type produced by
`Position::sub`. -/
def offsetOfDelta (t : Int × Int × Int) : PosnOffset :=
  { x_diff := t.1, y_diff := t.2.1, z_diff := t.2.2 }

/-- Re-derives the movement direction from a position offset: the partial
inverse of `moveDelta` composed with `offsetOfDelta`. -/
def dirOfOffset (o : PosnOffset) : Option Direction :=
  if o = offsetOfDelta (moveDelta .N) then some .N
  else if o = offsetOfDelta (moveDelta .NW) then some .NW
  else if o = offsetOfDelta (moveDelta .W) then some .W
  else if o = offsetOfDelta (moveDelta .SW) then some .SW
  else if o = offsetOfDelta (moveDelta .S) then some .S
  else if o = offsetOfDelta (moveDelta .SE) then some .SE
  else if o = offsetOfDelta (moveDelta .E) then some .E
  else if o = offsetOfDelta (moveDelta .NE) then some .NE
  else if o = offsetOfDelta (moveDelta .UP) then some .UP
  else if o = offsetOfDelta (moveDelta .DOWN) then some .DOWN
  else none

/-- `Lockable` from components.rs: a lock flag plus the id of the key that
opens it. -/
structure Lockable where
  is_locked : Bool
  key : Int
  deriving DecidableEq, Repr

/-- `Lockable::unlock` (components.rs lines 524-530): unlocks when given the
correct key value; returns whether the unlock happened. -/
def Lockable.unlock (l : Lockable) (test_key : Int) : Lockable × Bool :=
  if test_key = l.key then ({ l with is_locked := false }, true)
  else (l, false)

/-- `Lockable::lock` (components.rs lines 533-537): locks; a nonzero key
argument overwrites the stored key, zero keeps it; returns the stored key. -/
def Lockable.lock (l : Lockable) (new_key : Int) : Lockable × Int :=
  let l' : Lockable :=
    { is_locked := true, key := if new_key ≠ 0 then new_key else l.key }
  (l', l'.key)

/-- `Key` from components.rs: tags an item as a key with a key id. -/
structure Key where
  key_id : Int
  deriving DecidableEq, Repr

/-- `DeviceState` from components.rs. -/
inductive DeviceState where
  | Offline
  | Idle
  | Working
  | Error (code : Nat)
  deriving DecidableEq, Repr

/-- `Device` from components.rs: power switch, battery and mode. -/
structure Device where
  pw_switch : Bool
  batt_voltage : Int
  batt_discharge : Int
  state : DeviceState
  deriving DecidableEq, Repr

/-- `Device::power_toggle` (components.rs lines 592-598): flips the power
switch and returns the new setting. -/
def Device.power_toggle (d : Device) : Device × Bool :=
  let d' := { d with pw_switch := !d.pw_switch }
  (d', d'.pw_switch)

/-! ## Rolling data series (planq_monitor_system, sys.rs lines 804-818)

The "test_sparkline" source pushes the new sample onto the back of the
series, then pops entries from the front while the length is at least 31. -/

/-- The front-eviction loop of the sparkline update: pop the front element
while the series holds 31 or more entries. -/
def evict (l : List Nat) : List Nat :=
  if h : 31 ≤ l.length then evict l.tail else l
termination_by l.length
decreasing_by
  have := List.length_tail l
  omega

/-- One sampling update of a rolling `Series`: `push_back` the sample, then
run the eviction loop. -/
def seriesUpdate (arr : List Nat) (v : Nat) : List Nat :=
  evict (arr ++ [v])

/-! ## Game events

`GameEvent` and its context live in the missing `sys/event.rs`; the shape is
fixed by how sys.rs uses them: an event type plus an optional
(subject, object) context of entity ids. -/

/-- The game-event kinds consumed by the embedded systems (movement,
openable, lockable, operable, item-transfer), plus `NullEvent` standing for
every kind none of them handles. -/
inductive GameEventType where
  | PlayerMove (dir : Direction)
  | ActorOpen
  | ActorClose
  | ActorLock
  | ActorUnlock
  | ItemUse
  | ItemMove
  | ItemDrop
  | ItemKILL
  | NullEvent
  deriving DecidableEq, Repr

/-- `Entity::PLACEHOLDER`: the reserved id used for "no entity". -/
def PLACEHOLDER : Nat := 0

/-- The (subject, object) context attached to a `GameEvent`. -/
structure EventContext where
  subject : Nat
  object : Nat
  deriving DecidableEq, Repr

/-- Modelled from the spec: `EventContext::is_invalid` (event.rs is absent
from the sources).  Per spec section 3, a context whose subject or object is
missing (the placeholder entity) is "an explicit invalid state". -/
def EventContext.is_invalid (c : EventContext) : Bool :=
  c.subject = PLACEHOLDER || c.object = PLACEHOLDER

/-- A `GameEvent`: a tagged kind with optional subject/object context. -/
structure GameEvent where
  etype : GameEventType
  context : Option EventContext
  deriving DecidableEq, Repr

/-! ## MessageLog

messagelog.rs is absent from the sources; per spec section 6 the narration
sink is append-style, so `tell_player` is modelled as appending one line. -/

/-- Modelled from the spec: the player-facing narration feed; `tell_player`
appends a line (messagelog.rs is absent from the sources). -/
def tell_player (log : List String) (msg : String) : List String :=
  log ++ [msg]

/-! ## lock_system (sys.rs lines 346-403) -/

/-- One row of `lock_system`'s actor query
`(Entity, &Position, &Name, Option<&Player>) With<CanOpen>`: presence in the
store means the entity carries Position, Name and CanOpen. -/
structure LockActor where
  posn : Position
  name : String
  isPlayer : Bool
  deriving DecidableEq, Repr

/-- One row of `lock_system`'s target query
`(Entity, &Position, &Name, &mut Lockable)`. -/
structure LockTarget where
  posn : Position
  name : String
  lockable : Lockable
  deriving DecidableEq, Repr

/-- One row of `lock_system`'s key query
`(Entity, &Portable, &Name, &Key) Without<Position>`: a carried key-tagged
item.  Kept as a list to preserve the query's iteration order. -/
structure KeyItem where
  id : Nat
  carrier : Nat
  name : String
  key_id : Int
  deriving DecidableEq, Repr

/-- The state visible to `lock_system`. -/
structure LockWorld where
  actors : Nat → Option LockActor
  locks : Nat → Option LockTarget
  keys : List KeyItem
  msglog : List String

/-- The body of `lock_system`'s ActorUnlock key loop (sys.rs lines 380-395):
each carried key in order either unlocks (overwriting the pending message
with the success line) or, for a player actor, overwrites it with the
"wrong key" line. -/
def unlockStep (playerAction : Bool) (actorName targetName : String)
    (acc : Lockable × String) (k : KeyItem) : Lockable × String :=
  if k.key_id = acc.1.key then
    ({ acc.1 with is_locked := false },
     if playerAction then
       "Your " ++ k.name ++ " unlocks the " ++ targetName ++ "."
     else
       "The " ++ actorName ++ " unlocks the " ++ targetName ++ ".")
  else
    (acc.1,
     if playerAction then
       "You don" ++ apos ++ "t seem to have the right key."
     else acc.2)

/-- Handling of a single event by `lock_system` (sys.rs lines 353-402).
`none` models an `unwrap` panic. -/
def lock_handle (w : LockWorld) (ev : GameEvent) : Option LockWorld :=
  if ev.etype ≠ GameEventType.ActorLock ∧ ev.etype ≠ GameEventType.ActorUnlock then
    some w
  else
    match ev.context with
    | none => some w
    | some ctx =>
      match w.actors ctx.subject with
      | none => none
      | some actor =>
        match w.locks ctx.object with
        | none => none
        | some target =>
          let playerAction := actor.isPlayer
          match ev.etype with
          | GameEventType.ActorLock =>
            let target' := { target with lockable := { target.lockable with is_locked := true } }
            let message :=
              if playerAction then
                "You tap the LOCK button on the " ++ target.name ++ "."
              else
                "The " ++ actor.name ++ " locks the " ++ target.name ++ "."
            some { w with
              locks := fun e => if e = ctx.object then some target' else w.locks e,
              msglog := tell_player w.msglog message }
          | GameEventType.ActorUnlock =>
            let carried_keys := w.keys.filter (fun k => k.carrier = ctx.subject)
            if carried_keys.isEmpty then some w
            else
              let res := carried_keys.foldl
                (unlockStep playerAction actor.name target.name)
                (target.lockable, "")
              let target' := { target with lockable := res.1 }
              some { w with
                locks := fun e => if e = ctx.object then some target' else w.locks e,
                msglog := if res.2 ≠ "" then tell_player w.msglog res.2 else w.msglog }
          | _ => some w

/-! ## operable_system (sys.rs lines 405-419) -/

/-- One row of `operable_system`'s device query `(Entity, &Name, &mut Device)`. -/
structure DeviceEntry where
  name : String
  device : Device
  deriving DecidableEq, Repr

/-- The state visible to `operable_system`. -/
structure OperableWorld where
  devices : Nat → Option DeviceEntry

/-- Handling of a single event by `operable_system` (sys.rs lines 409-418):
skips non-ItemUse events, `unwrap`s the context (panic when missing), skips
invalid contexts, `unwrap`s the device lookup, and toggles power only when
the device is not already powered on. -/
def operable_handle (w : OperableWorld) (ev : GameEvent) : Option OperableWorld :=
  if ev.etype ≠ GameEventType.ItemUse then some w
  else
    match ev.context with
    | none => none
    | some ctx =>
      if ctx.is_invalid then some w
      else
        match w.devices ctx.object with
        | none => none
        | some dev =>
          if !dev.device.pw_switch then
            let dev' := { dev with device := (dev.device.power_toggle).1 }
            some { w with devices := fun e => if e = ctx.object then some dev' else w.devices e }
          else some w

/-! ## openable_system (sys.rs lines 288-344) -/

/-- `Openable` from components.rs. -/
structure Openable where
  is_open : Bool
  is_stuck : Bool
  open_glyph : String
  closed_glyph : String
  deriving DecidableEq, Repr

/-- One row of `openable_system`'s door query
`(Entity, &Position, &mut Openable, &mut Renderable, &mut Opaque, Option<&Obstructive>)`.
`glyph` is the Renderable glyph; `opaq` the Opaque flag; `obstructive`
whether the Obstructive tag component is attached. -/
structure DoorEntry where
  id : Nat
  posn : Position
  openable : Openable
  glyph : String
  opaq : Bool
  obstructive : Bool
  deriving DecidableEq, Repr

/-- One row of `openable_system`'s actor query
`(Entity, &Position, &Name, Option<&Player>, Option<&mut Viewshed>) With<CanOpen>`.
`viewshedDirty` holds the dirty flag when the actor has a Viewshed. -/
structure OpenActor where
  posn : Position
  name : String
  isPlayer : Bool
  viewshedDirty : Option Bool
  deriving DecidableEq, Repr

/-- The state visible to `openable_system`. -/
structure OpenWorld where
  doors : List DoorEntry
  actors : Nat → Option OpenActor
  msglog : List String

/-- The door mutation on ActorOpen (sys.rs lines 306-313). -/
def openDoor (obj : Nat) (d : DoorEntry) : DoorEntry :=
  if d.id = obj then
    { d with openable := { d.openable with is_open := true },
             glyph := d.openable.open_glyph,
             opaq := false,
             obstructive := false }
  else d

/-- The door mutation on ActorClose (sys.rs lines 323-330). -/
def closeDoor (obj : Nat) (d : DoorEntry) : DoorEntry :=
  if d.id = obj then
    { d with openable := { d.openable with is_open := false },
             glyph := d.openable.closed_glyph,
             opaq := true,
             obstructive := true }
  else d

/-- Handling of a single event by `openable_system` (sys.rs lines 294-343).
`none` models the `unwrap` panic on a failed actor lookup. -/
def openable_handle (w : OpenWorld) (ev : GameEvent) : Option OpenWorld :=
  if ev.etype ≠ GameEventType.ActorOpen ∧ ev.etype ≠ GameEventType.ActorClose then
    some w
  else
    match ev.context with
    | none => some w
    | some ctx =>
      match w.actors ctx.subject with
      | none => none
      | some actor =>
        let player_action := actor.isPlayer
        match ev.etype with
        | GameEventType.ActorOpen =>
          let doors' := w.doors.map (openDoor ctx.object)
          let message :=
            if player_action then "The door slides open at your touch."
            else "The " ++ actor.name ++ " opens a door."
          let actor' := { actor with
            viewshedDirty := actor.viewshedDirty.map (fun _ => true) }
          some { w with
            doors := doors',
            actors := fun e => if e = ctx.subject then some actor' else w.actors e,
            msglog := tell_player w.msglog message }
        | GameEventType.ActorClose =>
          let doors' := w.doors.map (closeDoor ctx.object)
          let message :=
            if player_action then "The door slides shut."
            else "The " ++ actor.name ++ " closes a door."
          let actor' := { actor with
            viewshedDirty := actor.viewshedDirty.map (fun _ => true) }
          some { w with
            doors := doors',
            actors := fun e => if e = ctx.subject then some actor' else w.actors e,
            msglog := tell_player w.msglog message }
        | _ => some w

/-! ## item_collection_system (sys.rs lines 446-501) -/

/-- One row of the item system's holder query
`(Entity, &Name, &Position, &Container, Option<&Player>)`. -/
structure Holder where
  name : String
  posn : Position
  isPlayer : Bool
  deriving DecidableEq, Repr

/-- One row of the item system's item query
`(Entity, &Name, &Portable, Option<&Position>)`. -/
structure ItemEntry where
  name : String
  carrier : Nat
  posn : Option Position
  deriving DecidableEq, Repr

/-- The state visible to `item_collection_system`. -/
structure ItemWorld where
  holders : Nat → Option Holder
  items : Nat → Option ItemEntry
  msglog : List String

/-- Handling of a single event by `item_collection_system`
(sys.rs lines 454-500).  `none` models the `unwrap` panics on failed
subject/object lookups. -/
def item_handle (w : ItemWorld) (ev : GameEvent) : Option ItemWorld :=
  if ev.etype ≠ GameEventType.ItemMove ∧ ev.etype ≠ GameEventType.ItemDrop
     ∧ ev.etype ≠ GameEventType.ItemKILL then
    some w
  else
    match ev.context with
    | none => some w
    | some ctx =>
      if ctx.is_invalid then some w
      else
        match w.holders ctx.subject with
        | none => none
        | some subject =>
          match w.items ctx.object with
          | none => none
          | some object =>
            match ev.etype with
            | GameEventType.ItemMove =>
              let object' := { object with carrier := ctx.subject, posn := none }
              let message :=
                if subject.isPlayer then "Obtained a " ++ object.name ++ "."
                else "The " ++ subject.name ++ " takes a " ++ object.name ++ "."
              some { w with
                items := fun e => if e = ctx.object then some object' else w.items e,
                msglog := tell_player w.msglog message }
            | GameEventType.ItemDrop =>
              let object' := { object with carrier := PLACEHOLDER, posn := some subject.posn }
              let message :=
                if subject.isPlayer then "Dropped a " ++ object.name ++ "."
                else "The " ++ subject.name ++ " drops a " ++ object.name ++ "."
              some { w with
                items := fun e => if e = ctx.object then some object' else w.items e,
                msglog := tell_player w.msglog message }
            | GameEventType.ItemKILL =>
              some { w with items := fun e => if e = ctx.object then none else w.items e }
            | _ => some w

/-! ## Map model (map.rs is absent from the sources)

sys.rs consumes from the `Model` resource: `levels` (a stack of floors),
each floor with `tiles`, `blocked_tiles`, `opaque_tiles`, `revealed_tiles`,
`width`, `height` and `to_index`, plus a `portals` table.  Spec sections 3
and 4.1 fix the shape: parallel bitmaps indexed by `y*width+x`, and a portal
table from source (x,y,z) to destination (x,y,z). -/

/-- Modelled from the spec: the terrain types sys.rs distinguishes
(`TileType::Stairway` in movement, `TileType::Floor` in camera_system, and
blocking terrain such as walls; map.rs is absent from the sources). -/
inductive TileType where
  | Floor
  | Wall
  | Stairway
  deriving DecidableEq, Repr

/-- Modelled from the spec: `TileType`'s display name, used when movement
narrates the obstructing terrain (map.rs is absent from the sources). -/
def TileType.toText : TileType → String
  | .Floor => "floor"
  | .Wall => "wall"
  | .Stairway => "stairway"

/-- A map tile; only the terrain type matters to the embedded systems. -/
structure Tile where
  ttype : TileType
  deriving DecidableEq, Repr

/-- Modelled from the spec: one floor of the map stack with its parallel
bitmaps (map.rs is absent from the sources; spec section 3 fixes
`length = width*height`, indexed by `y*width+x`). -/
structure Floor where
  width : Int
  height : Int
  tiles : List Tile
  blocked_tiles : List Bool
  revealed_tiles : List Bool
  deriving DecidableEq, Repr

/-- Modelled from the spec: `Map::to_index`, the `y*width+x` bitmap index
(map.rs is absent from the sources). -/
def Floor.to_index (f : Floor) (x y : Int) : Int :=
  y * f.width + x

/-- Rust `model.levels[z as usize]`: `none` models the index-out-of-range
panic (a negative `z` cast to `usize` is likewise out of range). -/
def floorAt (levels : List Floor) (z : Int) : Option Floor :=
  if z < 0 then none else levels.get? z.toNat

/-- Rust indexing of a `Vec` by a possibly-invalid index: `none` models the
out-of-range panic. -/
def vecGet {α : Type} (l : List α) (i : Int) : Option α :=
  if i < 0 then none else l.get? i.toNat

/-- The portal table: a finite map from source (x,y,z) to destination
(x,y,z), with `HashMap::get` as ordered association-list lookup. -/
def portalGet (ps : List ((Int × Int × Int) × (Int × Int × Int)))
    (k : Int × Int × Int) : Option (Int × Int × Int) :=
  (ps.find? (fun e => e.1 = k)).map (fun e => e.2)

/-! ## movement_system (sys.rs lines 149-259) -/

/-- Whether `movement_system`'s event loop continues with the next event or
returns from the whole pass. -/
inductive Flow where
  | next
  | ret
  deriving DecidableEq, Repr

/-- The state visible to `movement_system`: the player's Position and
Viewshed dirty flag (`p_query`), the mirrored player-position resource
(`p_posn_res`), the `Model` resource, the non-player entity query
`(&Position, &Name, ...) Without<Player>` in iteration order, and the
message log. -/
structure MoveWorld where
  playerPos : Position
  playerDirty : Bool
  pPosnRes : Position
  levels : List Floor
  portals : List ((Int × Int × Int) × (Int × Int × Int))
  enties : List (Position × String)
  msglog : List String
  deriving DecidableEq, Repr

/-- "The way DIR is blocked by a NAME." (sys.rs line 212). -/
def blockedByEntityMsg (dir : Direction) (name : String) : String :=
  "The way " ++ dir.toText ++ " is blocked by a " ++ name ++ "."

/-- "The way DIR is blocked by the TTYPE." (sys.rs lines 217-218). -/
def blockedByTileMsg (dir : Direction) (t : TileType) : String :=
  "The way " ++ dir.toText ++ " is blocked by the " ++ t.toText ++ "."

/-- "There is nothing here to ascend./descend." (sys.rs lines 191-193). -/
def nothingHereMsg (zdiff : Int) : String :=
  "There is nothing here to " ++ (if zdiff = 1 then "ascend." else "descend.")

/-- The tile-contents short summary (sys.rs lines 241-247): names are popped
from the back of the contents vector and joined with ", and a ". -/
def popJoin : List String → String
  | [] => ""
  | [a] => a
  | a :: rest => a ++ ", and a " ++ popJoin rest

/-- "There's a X, and a Y here." -/
def contentsShortMsg (contents : List String) : String :=
  "There" ++ apos ++ "s a " ++ popJoin contents.reverse ++ " here."

/-- "There's some stuff here on the ground." (sys.rs line 251). -/
def contentsLongMsg : String :=
  "There" ++ apos ++ "s some stuff here on the ground."

/-- Steps 1-2 of a `PlayerMove` (sys.rs lines 164-205): compute the naive
target and its bitmap index, then run the vertical-move logic.  `none`
models a panic; `Sum.inl` is an early exit of this event's handling
(`continue`, with any narration already logged); `Sum.inr` carries the final
destination and the (naively computed) bitmap index into the shared
blocked-check code. -/
def moveResolve (w : MoveWorld) (dir : Direction) :
    Option (Sum (MoveWorld × Flow) (Position × Int)) :=
  let d := moveDelta dir
  let target0 : Position :=
    { x := w.playerPos.x + d.1, y := w.playerPos.y + d.2.1, z := w.playerPos.z + d.2.2 }
  match floorAt w.levels target0.z with
  | none => none
  | some flr0 =>
    let tIndex := flr0.to_index target0.x target0.y
    if dir = Direction.UP ∨ dir = Direction.DOWN then
      if target0.z < 0 ∨ (w.levels.length : Int) ≤ target0.z then
        some (Sum.inl (w, Flow.next))
      else
        match floorAt w.levels w.playerPos.z with
        | none => none
        | some pflr =>
          match vecGet pflr.tiles (pflr.to_index w.playerPos.x w.playerPos.y) with
          | none => none
          | some ptile =>
            if ptile.ttype ≠ TileType.Stairway then
              some (Sum.inl
                ({ w with msglog := tell_player w.msglog (nothingHereMsg d.2.2) },
                 Flow.next))
            else
              match portalGet w.portals (w.playerPos.x, w.playerPos.y, w.playerPos.z) with
              | some a => some (Sum.inr ({ x := a.1, y := a.2.1, z := a.2.2 }, tIndex))
              | none => some (Sum.inr (target0, tIndex))
    else
      some (Sum.inr (target0, tIndex))

/-- Steps 3-4 of a `PlayerMove` (sys.rs lines 206-253): the destination-map
assertion, the blocked check with obstruction narration (which `return`s
from the whole pass), and the successful position/viewshed/resource update
with tile-contents narration. -/
def movementFinish (w : MoveWorld) (dir : Direction) (target : Position)
    (tIndex : Int) : Option (MoveWorld × Flow) :=
  match floorAt w.levels target.z with
  | none => none
  | some tflr =>
    if tflr.tiles.length ≤ 1 then none
    else
      match vecGet tflr.blocked_tiles tIndex with
      | none => none
      | some blocked =>
        if blocked then
          match w.enties.find? (fun e => e.1 = target) with
          | some guy =>
            some ({ w with msglog := tell_player w.msglog (blockedByEntityMsg dir guy.2) },
                  Flow.ret)
          | none =>
            match vecGet tflr.tiles tIndex with
            | none => none
            | some t =>
              some ({ w with msglog := tell_player w.msglog (blockedByTileMsg dir t.ttype) },
                    Flow.ret)
        else
          let w1 := { w with playerPos := target, pPosnRes := target, playerDirty := true }
          let contents := (w.enties.filter (fun e => e.1 = target)).map (fun e => e.2)
          if contents.isEmpty then some (w1, Flow.next)
          else if contents.length ≤ 3 then
            some ({ w1 with msglog := tell_player w1.msglog (contentsShortMsg contents) },
                  Flow.next)
          else
            some ({ w1 with msglog := tell_player w1.msglog contentsLongMsg }, Flow.next)

/-- Handling of a single event by `movement_system` (sys.rs lines 160-257).
Non-`PlayerMove` events are thrown out. -/
def movement_handle (w : MoveWorld) (ev : GameEventType) : Option (MoveWorld × Flow) :=
  match ev with
  | GameEventType.PlayerMove dir =>
    match moveResolve w dir with
    | none => none
    | some (Sum.inl r) => some r
    | some (Sum.inr ti) => movementFinish w dir ti.1 ti.2
  | _ => some (w, Flow.next)

/-- `movement_system`'s event loop: handles queued events in order;
`Flow.ret` (the obstruction branch's `return`) abandons the rest of the
queue for this pass. -/
def movement_system (w : MoveWorld) : List GameEventType → Option MoveWorld
  | [] => some w
  | ev :: rest =>
    match movement_handle w ev with
    | none => none
    | some (w', Flow.next) => movement_system w' rest
    | some (w', Flow.ret) => some w'

/-! ## visibility_system (sys.rs lines 421-444)

`field_of_view` comes from the external `bracket_pathfinding` crate (out of
scope per the spec), so the systems below are parameterized by an arbitrary
sweep function `fov`. -/

/-- `bracket_pathfinding::Point`: the 2-D points produced by the sweep. -/
structure Point where
  x : Int
  y : Int
  deriving DecidableEq, Repr

/-- One row of `visibility_system`'s query
`(&mut Viewshed, &Position, Option<&Player>)`. -/
structure Seer where
  visible_tiles : List Point
  range : Int
  dirty : Bool
  pos : Position
  isPlayer : Bool
  deriving DecidableEq, Repr

/-- The state visible to `visibility_system`. -/
structure VisWorld where
  levels : List Floor
  seers : List Seer
  deriving DecidableEq, Repr

/-- The clipping `retain` of sys.rs lines 431-433: keep only points within
the grid extents. -/
def fovClip (map : Floor) (pts : List Point) : List Point :=
  pts.filter (fun p => 0 ≤ p.x ∧ p.x < map.width ∧ 0 ≤ p.y ∧ p.y < map.height)

/-- The player branch of sys.rs lines 434-439: mark every visible tile as
revealed.  The write `revealed_tiles[map_index] = true` is modelled with
`List.set` (total; in range under the spec's `length = width*height` bitmap
invariant, which the clip guarantees for every written index). -/
def markRevealed (map : Floor) (pts : List Point) : List Bool :=
  pts.foldl (fun acc p => acc.set (map.to_index p.x p.y).toNat true)
    map.revealed_tiles

/-- The per-seer body of `visibility_system` (sys.rs lines 424-443): when
dirty, assert the z-level, recompute and clip the visible tiles, mark them
revealed for the player only, and clear the dirty flag.  `none` models the
assertion failure or the level-index panic. -/
def updateSeer (fov : Position → Int → Floor → List Point)
    (flrs : List Floor) (s : Seer) : Option (List Floor × Seer) :=
  if s.dirty then
    if s.pos.z = -1 then none
    else
      match floorAt flrs s.pos.z with
      | none => none
      | some map =>
        let vis := fovClip map (fov s.pos s.range map)
        let s' := { s with visible_tiles := vis, dirty := false }
        if s.isPlayer then
          let map' := { map with revealed_tiles := markRevealed map vis }
          some (flrs.set s.pos.z.toNat map', s')
        else
          some (flrs, s')
  else some (flrs, s)

/-- The seer loop of `visibility_system`, threading the map stack through
the per-seer updates. -/
def visRun (fov : Position → Int → Floor → List Point) (flrs : List Floor) :
    List Seer → Option (List Floor × List Seer)
  | [] => some (flrs, [])
  | s :: rest =>
    match updateSeer fov flrs s with
    | none => none
    | some (flrs', s') =>
      match visRun fov flrs' rest with
      | none => none
      | some (flrs'', rest') => some (flrs'', s' :: rest')

/-- `visibility_system` over the whole world. -/
def visibility_system (fov : Position → Int → Floor → List Point)
    (w : VisWorld) : Option VisWorld :=
  match visRun fov w.levels w.seers with
  | none => none
  | some (flrs, ss) => some { levels := flrs, seers := ss }

/-- The revealed bit of tile `ti` on floor `fi`. -/
def revealedBit (flrs : List Floor) (fi ti : Nat) : Option Bool :=
  match flrs.get? fi with
  | none => none
  | some f => f.revealed_tiles.get? ti

/-! ## map_indexing_system (sys.rs lines 261-286)

`Floor::update_tilemaps` lives in the absent map.rs; spec section 4.1 fixes
its contract: rebuild the blocked and opaque bitmaps from terrain, with
entity contributions layered on top.  The revealed bitmap is owned by the
visibility engine (spec section 4.3). -/

/-- Modelled from the spec: whether a terrain type blocks movement by
itself (spec section 4.1, "Terrain-only tiles may be blocking by type"). -/
def TileType.blocking : TileType → Bool
  | .Wall => true
  | .Floor => false
  | .Stairway => false

/-- Modelled from the spec: `Floor::update_tilemaps` rebuilds the blocked
bitmap from the terrain types (map.rs is absent from the sources). -/
def update_tilemaps (f : Floor) : Floor :=
  { f with blocked_tiles := f.tiles.map (fun t => t.ttype.blocking) }

/-- The per-floor body of `map_indexing_system` (sys.rs lines 270-285):
rebuild the terrain bitmaps, then flag every blocking entity's location.
`blockers` is the `Query<&Position, With<Obstructive>>` contents. -/
def indexFloor (blockers : List Position) (f_index : Int) (f : Floor) : Floor :=
  let f1 := update_tilemaps f
  blockers.foldl
    (fun acc p =>
      if p.z = f_index then
        { acc with blocked_tiles := acc.blocked_tiles.set (acc.to_index p.x p.y).toNat true }
      else acc)
    f1

/-- The floor loop of `map_indexing_system`, carrying the running
`f_index` counter. -/
def map_indexing_go (blockers : List Position) (f_index : Int) :
    List Floor → List Floor
  | [] => []
  | f :: rest => indexFloor blockers f_index f :: map_indexing_go blockers (f_index + 1) rest

/-- `map_indexing_system` over the floor stack (opacity handling omitted:
identical in structure to the blocked handling and unused by the claims). -/
def map_indexing_system (blockers : List Position) (levels : List Floor) :
    List Floor :=
  map_indexing_go blockers 0 levels

/-- The spec's bitmap well-formedness invariant (section 3):
`length == width × height`. -/
def wfFloor (f : Floor) : Prop :=
  f.revealed_tiles.length = (f.width * f.height).toNat

/-- The floor data that per-seer visibility updates can never change:
dimensions and the revealed-bitmap length. -/
def floorShape (f : Floor) : Int × Int × Nat :=
  (f.width, f.height, f.revealed_tiles.length)

/-! ## Concrete scenario worlds used to exercise the theorems -/

/-- A single-floor corridor whose middle tile is a blocking wall; the player
stands at its west end. -/
def blockedDemoWorld : MoveWorld :=
  { playerPos := { x := 0, y := 0, z := 0 }
    playerDirty := false
    pPosnRes := { x := 0, y := 0, z := 0 }
    levels := [{ width := 3, height := 1
                 tiles := [{ ttype := TileType.Floor }, { ttype := TileType.Wall },
                           { ttype := TileType.Floor }]
                 blocked_tiles := [false, true, false]
                 revealed_tiles := [false, false, false] }]
    portals := []
    enties := []
    msglog := [] }

/-- The lock scenario of spec section 8 extended with a second, wrong key
carried behind the matching one: the player (entity 1) faces a locked door
(entity 2, key id 7) and carries a matching key (id 7) and a non-matching
key (id 3), in that order. -/
def lockDemoWorld : LockWorld :=
  { actors := fun e =>
      if e = 1 then some { posn := { x := 5, y := 5, z := 0 }, name := "Pleyeur", isPlayer := true }
      else none
    locks := fun e =>
      if e = 2 then some { posn := { x := 6, y := 5, z := 0 }, name := "door",
                           lockable := { is_locked := true, key := 7 } }
      else none
    keys := [{ id := 10, carrier := 1, name := "red key", key_id := 7 },
             { id := 11, carrier := 1, name := "blue key", key_id := 3 }]
    msglog := [] }

/-- The same scenario carrying only the single matching key. -/
def lockDemoWorldOneKey : LockWorld :=
  { lockDemoWorld with
    keys := [{ id := 10, carrier := 1, name := "red key", key_id := 7 }] }

/-- A 2x1 floor whose west tile is already revealed. -/
def visDemoFloor : Floor :=
  { width := 2, height := 1
    tiles := [{ ttype := TileType.Floor }, { ttype := TileType.Floor }]
    blocked_tiles := [false, false]
    revealed_tiles := [true, false] }

/-- A one-seer visibility world: the player stands on `visDemoFloor`. -/
def visDemoWorld : VisWorld :=
  { levels := [visDemoFloor]
    seers := [{ visible_tiles := [], range := 8, dirty := true
                pos := { x := 0, y := 0, z := 0 }, isPlayer := true }] }

/-- The same world seen by a non-player entity. -/
def visDemoWorldNpc : VisWorld :=
  { visDemoWorld with
    seers := [{ visible_tiles := [], range := 8, dirty := true
                pos := { x := 0, y := 0, z := 0 }, isPlayer := false }] }

/-- A sweep that always sees the east tile (and an out-of-grid point that
the clip must discard). -/
def demoFov : Position → Int → Floor → List Point :=
  fun _ _ _ => [{ x := 1, y := 0 }, { x := 5, y := 9 }]

/-- `visDemoWorld` after one visibility pass: the east tile is now revealed
too, the viewshed holds the clipped sweep, and the dirty flag is clear. -/
def visDemoWorldAfter : VisWorld :=
  { levels := [{ visDemoFloor with revealed_tiles := [true, true] }]
    seers := [{ visible_tiles := [{ x := 1, y := 0 }], range := 8, dirty := false
                pos := { x := 0, y := 0, z := 0 }, isPlayer := true }] }

/-- `visDemoWorldNpc` after one visibility pass: the viewshed recomputes
but the revealed bitmap is untouched. -/
def visDemoWorldNpcAfter : VisWorld :=
  { levels := [visDemoFloor]
    seers := [{ visible_tiles := [{ x := 1, y := 0 }], range := 8, dirty := false
                pos := { x := 0, y := 0, z := 0 }, isPlayer := false }] }

/-! ## Theorems -/

theorem evict_of_lt (l : List Nat) (h : l.length < 31) : evict l = l := by
  rw [evict]
  simp [Nat.not_le.mpr h]

theorem evict_of_ge (l : List Nat) (h : 31 ≤ l.length) :
    evict l = evict l.tail := by
  rw [evict]
  simp [h]

theorem evict_length_le :
    ∀ n, ∀ l : List Nat, l.length ≤ n → 31 ≤ l.length →
      (evict l).length ≤ 30 := by
  intro n
  induction n with
  | zero => intro l hl h31; omega
  | succ n ih =>
    intro l hl h31
    rw [evict_of_ge l h31]
    have htail : l.tail.length = l.length - 1 := List.length_tail l
    by_cases h : 31 ≤ l.tail.length
    · exact ih l.tail (by omega) h
    · rw [evict_of_lt l.tail (by omega)]
      omega

theorem evict_suffix :
    ∀ n, ∀ l : List Nat, l.length ≤ n → evict l <:+ l := by
  intro n
  induction n with
  | zero =>
    intro l hl
    have : l = [] := List.eq_nil_of_length_eq_zero (by omega)
    subst this
    rw [evict_of_lt [] (by simp)]
  | succ n ih =>
    intro l hl
    by_cases h : 31 ≤ l.length
    · rw [evict_of_ge l h]
      have htail : l.tail.length = l.length - 1 := List.length_tail l
      exact (ih l.tail (by omega)).trans (List.tail_suffix l)
    · rw [evict_of_lt l (by omega)]

/-- C6: after each sampling update the rolling series holds at most 31
entries, the surviving entries are a suffix of the pushed series (entries
are evicted from the front, oldest first), and a 31-sample series receiving
one new sample evicts from the front rather than growing to 32. -/
theorem series_rolling_cap (arr : List Nat) (v : Nat) :
    (seriesUpdate arr v).length ≤ 31 ∧
    seriesUpdate arr v <:+ arr ++ [v] ∧
    (arr.length = 31 →
      (seriesUpdate arr v).length < 32 ∧
      ∃ k, 1 ≤ k ∧ seriesUpdate arr v = (arr ++ [v]).drop k) := by
  have hlen : (arr ++ [v]).length = arr.length + 1 := by simp
  have hsuf : seriesUpdate arr v <:+ arr ++ [v] :=
    evict_suffix (arr.length + 1) (arr ++ [v]) (by simp)
  have hle : (seriesUpdate arr v).length ≤ 31 := by
    by_cases h : 31 ≤ (arr ++ [v]).length
    · have := evict_length_le (arr.length + 1) (arr ++ [v]) (by simp) h
      unfold seriesUpdate
      omega
    · unfold seriesUpdate
      rw [evict_of_lt _ (by omega)]
      omega
  refine ⟨hle, hsuf, ?_⟩
  intro h31
  have hle30 : (seriesUpdate arr v).length ≤ 30 := by
    have := evict_length_le (arr.length + 1) (arr ++ [v]) (by simp) (by omega)
    unfold seriesUpdate
    omega
  obtain ⟨t, ht⟩ := hsuf
  have hlens : t.length + (seriesUpdate arr v).length = arr.length + 1 := by
    have := congrArg List.length ht
    simpa using this
  refine ⟨by omega, t.length, by omega, ?_⟩
  rw [← ht, List.drop_left]

theorem series_rolling_cap_witness :
    (seriesUpdate (List.replicate 31 0) 5).length ≤ 31 ∧
    seriesUpdate (List.replicate 31 0) 5 <:+ List.replicate 31 0 ++ [5] ∧
    ((seriesUpdate (List.replicate 31 0) 5).length < 32 ∧
      ∃ k, 1 ≤ k ∧
        seriesUpdate (List.replicate 31 0) 5 = (List.replicate 31 0 ++ [5]).drop k) :=
  ⟨(series_rolling_cap (List.replicate 31 0) 5).1,
   (series_rolling_cap (List.replicate 31 0) 5).2.1,
   (series_rolling_cap (List.replicate 31 0) 5).2.2 (by simp)⟩

/-- C7: `unlock(t)` clears the lock flag exactly when `t` is the stored key
and never changes the stored key; `lock(0)` locks, keeps the key, and
returns it; `lock(n)` with nonzero `n` locks and overwrites the key; hence
`unlock(k); lock(0)` preserves the previously set key id. -/
theorem lockable_lock_unlock_algebra (l : Lockable) (t n : Int) :
    ((t = l.key → (l.unlock t).1.is_locked = false) ∧
     (t ≠ l.key → (l.unlock t).1 = l) ∧
     (l.unlock t).1.key = l.key) ∧
    l.lock 0 = ({ is_locked := true, key := l.key }, l.key) ∧
    (n ≠ 0 → l.lock n = ({ is_locked := true, key := n }, n)) ∧
    ((l.unlock l.key).1.lock 0).1.key = l.key := by
  unfold Lockable.unlock Lockable.lock
  refine ⟨⟨?_, ?_, ?_⟩, ?_, ?_, ?_⟩
  · intro h; simp [h]
  · intro h; simp [h]
  · by_cases h : t = l.key <;> simp [h]
  · simp
  · intro h; simp [h]
  · simp

theorem lockable_lock_unlock_algebra_witness :
    (Lockable.unlock { is_locked := true, key := 7 } 7).1.is_locked = false ∧
    (Lockable.unlock { is_locked := true, key := 7 } 3).1
      = { is_locked := true, key := 7 } ∧
    Lockable.lock { is_locked := false, key := 7 } 0
      = ({ is_locked := true, key := 7 }, 7) ∧
    Lockable.lock { is_locked := false, key := 7 } 5
      = ({ is_locked := true, key := 5 }, 5) ∧
    ((Lockable.unlock { is_locked := true, key := 7 } 7).1.lock 0).1.key = 7 :=
  ⟨(lockable_lock_unlock_algebra { is_locked := true, key := 7 } 7 5).1.1 rfl,
   (lockable_lock_unlock_algebra { is_locked := true, key := 7 } 3 5).1.2.1 (by decide),
   (lockable_lock_unlock_algebra { is_locked := false, key := 7 } 3 5).2.1,
   (lockable_lock_unlock_algebra { is_locked := false, key := 7 } 3 5).2.2.1 (by decide),
   (lockable_lock_unlock_algebra { is_locked := true, key := 7 } 7 5).2.2.2⟩

/-- C8: for every direction handled by the movement system, the computed
target minus the origin is exactly the direction's unit delta; the delta
map is injective on these directions; and re-deriving the direction from
(target − origin) round-trips. -/
theorem direction_delta_roundtrip :
    (∀ (d : Direction) (p : Position),
      Position.sub (p.addT (moveDelta d)) p = offsetOfDelta (moveDelta d)) ∧
    (∀ d d' : Direction, moveDelta d = moveDelta d' → d = d') ∧
    (∀ (d : Direction) (p : Position),
      dirOfOffset (Position.sub (p.addT (moveDelta d)) p) = some d) := by
  have h1 : ∀ (d : Direction) (p : Position),
      Position.sub (p.addT (moveDelta d)) p = offsetOfDelta (moveDelta d) := by
    intro d p
    cases d <;>
      simp [Position.sub, Position.addT, moveDelta, offsetOfDelta,
        PosnOffset.mk.injEq]
  refine ⟨h1, ?_, ?_⟩
  · intro d d' h
    cases d <;> cases d' <;> first | rfl | exact absurd h (by decide)
  · intro d p
    rw [h1]
    cases d <;> rfl

theorem direction_delta_roundtrip_witness :
    Position.sub
        (Position.addT { x := 4, y := 5, z := 0 } (moveDelta Direction.NE))
        { x := 4, y := 5, z := 0 }
      = offsetOfDelta (moveDelta Direction.NE) ∧
    Direction.SW = Direction.SW ∧
    dirOfOffset
        (Position.sub
          (Position.addT { x := 4, y := 5, z := 0 } (moveDelta Direction.NE))
          { x := 4, y := 5, z := 0 })
      = some Direction.NE :=
  ⟨direction_delta_roundtrip.1 Direction.NE { x := 4, y := 5, z := 0 },
   direction_delta_roundtrip.2.1 Direction.SW Direction.SW rfl,
   direction_delta_roundtrip.2.2 Direction.NE { x := 4, y := 5, z := 0 }⟩

/-- C10: for an ItemUse event with valid context, the power toggle is
applied only when the target device's `pw_switch` is false — an already
powered-on device (and the rest of the world) is left completely unchanged,
and a powered-off device is switched on, so handling ItemUse never powers a
device off. -/
theorem operable_itemuse_never_powers_off (w : OperableWorld) (ev : GameEvent)
    (ctx : EventContext) (dev : DeviceEntry)
    (htype : ev.etype = GameEventType.ItemUse)
    (hctx : ev.context = some ctx)
    (hvalid : ctx.is_invalid = false)
    (hdev : w.devices ctx.object = some dev) :
    (dev.device.pw_switch = true → operable_handle w ev = some w) ∧
    (dev.device.pw_switch = false →
      operable_handle w ev
        = some { w with devices := (fun e =>
            if e = ctx.object then
              some ({ dev with device := (dev.device.power_toggle).1 })
            else w.devices e) } ∧
      ((dev.device.power_toggle).1).pw_switch = true) := by
  constructor
  · intro hon
    simp [operable_handle, htype, hctx, hvalid, hdev, hon]
  · intro hoff
    refine ⟨by simp [operable_handle, htype, hctx, hvalid, hdev, hoff], ?_⟩
    simp [Device.power_toggle, hoff]

theorem operable_itemuse_never_powers_off_witness :
    (operable_handle
        { devices := fun e =>
            if e = 2 then
              some { name := "PLANQ",
                     device := { pw_switch := true, batt_voltage := 100,
                                 batt_discharge := -1, state := DeviceState.Offline } }
            else none }
        { etype := GameEventType.ItemUse, context := some { subject := 1, object := 2 } }
      = some { devices := fun e =>
            if e = 2 then
              some { name := "PLANQ",
                     device := { pw_switch := true, batt_voltage := 100,
                                 batt_discharge := -1, state := DeviceState.Offline } }
            else none }) :=
  (operable_itemuse_never_powers_off
      { devices := fun e =>
          if e = 2 then
            some { name := "PLANQ",
                   device := { pw_switch := true, batt_voltage := 100,
                               batt_discharge := -1, state := DeviceState.Offline } }
          else none }
      { etype := GameEventType.ItemUse, context := some { subject := 1, object := 2 } }
      { subject := 1, object := 2 }
      { name := "PLANQ",
        device := { pw_switch := true, batt_voltage := 100,
                    batt_discharge := -1, state := DeviceState.Offline } }
      rfl rfl (by decide) (by simp)).1 rfl

/-- C1 fails on the code: `operable_system` `unwrap`s the event context
before any check, so an ItemUse event with missing subject/object context
panics instead of being skipped silently. -/
theorem interaction_missing_context_panics :
    operable_handle { devices := fun _ => none }
      { etype := GameEventType.ItemUse, context := none } = none := rfl

/-- C1 amended: openable, lockable and item-transfer skip silently on a
missing event context, and operable and item-transfer skip silently on an
invalid (placeholder) context; but operable panics on a missing context,
and in all four systems a subject or object that fails its component lookup
panics (`unwrap`) rather than skipping. -/
theorem interaction_context_policy :
    (∀ (w : OpenWorld) (ev : GameEvent),
      ev.context = none → openable_handle w ev = some w) ∧
    (∀ (w : OpenWorld) (ev : GameEvent) (ctx : EventContext),
      (ev.etype = GameEventType.ActorOpen ∨ ev.etype = GameEventType.ActorClose) →
      ev.context = some ctx → w.actors ctx.subject = none →
      openable_handle w ev = none) ∧
    (∀ (w : LockWorld) (ev : GameEvent),
      ev.context = none → lock_handle w ev = some w) ∧
    (∀ (w : LockWorld) (ev : GameEvent) (ctx : EventContext),
      (ev.etype = GameEventType.ActorLock ∨ ev.etype = GameEventType.ActorUnlock) →
      ev.context = some ctx → w.actors ctx.subject = none →
      lock_handle w ev = none) ∧
    (∀ (w : LockWorld) (ev : GameEvent) (ctx : EventContext) (actor : LockActor),
      (ev.etype = GameEventType.ActorLock ∨ ev.etype = GameEventType.ActorUnlock) →
      ev.context = some ctx → w.actors ctx.subject = some actor →
      w.locks ctx.object = none →
      lock_handle w ev = none) ∧
    (∀ (w : OperableWorld) (ev : GameEvent),
      ev.etype = GameEventType.ItemUse → ev.context = none →
      operable_handle w ev = none) ∧
    (∀ (w : OperableWorld) (ev : GameEvent) (ctx : EventContext),
      ev.etype = GameEventType.ItemUse → ev.context = some ctx →
      ctx.is_invalid = true → operable_handle w ev = some w) ∧
    (∀ (w : OperableWorld) (ev : GameEvent) (ctx : EventContext),
      ev.etype = GameEventType.ItemUse → ev.context = some ctx →
      ctx.is_invalid = false → w.devices ctx.object = none →
      operable_handle w ev = none) ∧
    (∀ (w : ItemWorld) (ev : GameEvent),
      ev.context = none → item_handle w ev = some w) ∧
    (∀ (w : ItemWorld) (ev : GameEvent) (ctx : EventContext),
      ev.context = some ctx → ctx.is_invalid = true →
      item_handle w ev = some w) ∧
    (∀ (w : ItemWorld) (ev : GameEvent) (ctx : EventContext),
      (ev.etype = GameEventType.ItemMove ∨ ev.etype = GameEventType.ItemDrop
        ∨ ev.etype = GameEventType.ItemKILL) →
      ev.context = some ctx → ctx.is_invalid = false →
      w.holders ctx.subject = none →
      item_handle w ev = none) ∧
    (∀ (w : ItemWorld) (ev : GameEvent) (ctx : EventContext) (subject : Holder),
      (ev.etype = GameEventType.ItemMove ∨ ev.etype = GameEventType.ItemDrop
        ∨ ev.etype = GameEventType.ItemKILL) →
      ev.context = some ctx → ctx.is_invalid = false →
      w.holders ctx.subject = some subject → w.items ctx.object = none →
      item_handle w ev = none) := by
  refine ⟨?_, ?_, ?_, ?_, ?_, ?_, ?_, ?_, ?_, ?_, ?_, ?_⟩
  · intro w ev h
    unfold openable_handle
    split
    · rfl
    · rw [h]
  · intro w ev ctx he hc ha
    rcases he with he | he <;>
      simp [openable_handle, he, hc, ha]
  · intro w ev h
    unfold lock_handle
    split
    · rfl
    · rw [h]
  · intro w ev ctx he hc ha
    rcases he with he | he <;>
      simp [lock_handle, he, hc, ha]
  · intro w ev ctx actor he hc ha hl
    rcases he with he | he <;>
      simp [lock_handle, he, hc, ha, hl]
  · intro w ev he hc
    simp [operable_handle, he, hc]
  · intro w ev ctx he hc hi
    simp [operable_handle, he, hc, hi]
  · intro w ev ctx he hc hi hd
    simp [operable_handle, he, hc, hi, hd]
  · intro w ev h
    unfold item_handle
    split
    · rfl
    · rw [h]
  · intro w ev ctx hc hi
    unfold item_handle
    split
    · rfl
    · rw [hc]
      simp [hi]
  · intro w ev ctx he hc hi hh
    rcases he with he | he | he <;>
      simp [item_handle, he, hc, hi, hh]
  · intro w ev ctx subject he hc hi hh ho
    rcases he with he | he | he <;>
      simp [item_handle, he, hc, hi, hh, ho]

theorem interaction_context_policy_witness :
    openable_handle { doors := [], actors := fun _ => none, msglog := [] }
        { etype := GameEventType.ActorOpen, context := none }
      = some { doors := [], actors := fun _ => none, msglog := [] } ∧
    openable_handle { doors := [], actors := fun _ => none, msglog := [] }
        { etype := GameEventType.ActorOpen,
          context := some { subject := 1, object := 2 } }
      = none ∧
    lock_handle { actors := fun _ => none, locks := fun _ => none, keys := [], msglog := [] }
        { etype := GameEventType.ActorUnlock, context := none }
      = some { actors := fun _ => none, locks := fun _ => none, keys := [], msglog := [] } ∧
    lock_handle { actors := fun _ => none, locks := fun _ => none, keys := [], msglog := [] }
        { etype := GameEventType.ActorUnlock,
          context := some { subject := 1, object := 2 } }
      = none ∧
    lock_handle lockDemoWorld
        { etype := GameEventType.ActorUnlock,
          context := some { subject := 1, object := 3 } }
      = none ∧
    operable_handle { devices := fun _ => none }
        { etype := GameEventType.ItemUse, context := none }
      = none ∧
    operable_handle { devices := fun _ => none }
        { etype := GameEventType.ItemUse,
          context := some { subject := 0, object := 2 } }
      = some { devices := fun _ => none } ∧
    operable_handle { devices := fun _ => none }
        { etype := GameEventType.ItemUse,
          context := some { subject := 1, object := 2 } }
      = none ∧
    item_handle { holders := fun _ => none, items := fun _ => none, msglog := [] }
        { etype := GameEventType.ItemMove, context := none }
      = some { holders := fun _ => none, items := fun _ => none, msglog := [] } ∧
    item_handle { holders := fun _ => none, items := fun _ => none, msglog := [] }
        { etype := GameEventType.ItemMove,
          context := some { subject := 1, object := 0 } }
      = some { holders := fun _ => none, items := fun _ => none, msglog := [] } ∧
    item_handle { holders := fun _ => none, items := fun _ => none, msglog := [] }
        { etype := GameEventType.ItemMove,
          context := some { subject := 1, object := 2 } }
      = none ∧
    item_handle
        { holders := fun e =>
            if e = 1 then
              some { name := "Pleyeur", posn := { x := 0, y := 0, z := 0 }, isPlayer := true }
            else none,
          items := fun _ => none, msglog := [] }
        { etype := GameEventType.ItemMove,
          context := some { subject := 1, object := 2 } }
      = none :=
  ⟨interaction_context_policy.1 _ _ rfl,
   interaction_context_policy.2.1 _ _ _ (Or.inl rfl) rfl rfl,
   interaction_context_policy.2.2.1 _ _ rfl,
   interaction_context_policy.2.2.2.1 _ _ _ (Or.inr rfl) rfl rfl,
   interaction_context_policy.2.2.2.2.1 _ _ _
     { posn := { x := 5, y := 5, z := 0 }, name := "Pleyeur", isPlayer := true }
     (Or.inr rfl) rfl (by decide) (by decide),
   interaction_context_policy.2.2.2.2.2.1 _ _ rfl rfl,
   interaction_context_policy.2.2.2.2.2.2.1 _ _ _ rfl rfl (by decide),
   interaction_context_policy.2.2.2.2.2.2.2.1 _ _ _ rfl rfl (by decide) rfl,
   interaction_context_policy.2.2.2.2.2.2.2.2.1 _ _ rfl,
   interaction_context_policy.2.2.2.2.2.2.2.2.2.1 _ _ _ rfl (by decide),
   interaction_context_policy.2.2.2.2.2.2.2.2.2.2.1 _ _ _ (Or.inl rfl) rfl
     (by decide) rfl,
   interaction_context_policy.2.2.2.2.2.2.2.2.2.2.2 _ _ _
     { name := "Pleyeur", posn := { x := 0, y := 0, z := 0 }, isPlayer := true }
     (Or.inl rfl) rfl (by decide) (by simp) rfl⟩

/-- C2 fails on the code: the unlock key loop does not stop at the first
matching key, and its per-key else branch overwrites the pending message,
so a player carrying a matching key followed by a non-matching key gets the
door unlocked but the "wrong key" failure narration.  (With the single
matching key of the spec scenario the success narration is produced.) -/
theorem lock_unlock_wrong_key_after_match :
    ((lock_handle lockDemoWorld
        { etype := GameEventType.ActorUnlock,
          context := some { subject := 1, object := 2 } }).bind
      (fun w => (w.locks 2).map (fun t => t.lockable.is_locked)) = some false) ∧
    ((lock_handle lockDemoWorld
        { etype := GameEventType.ActorUnlock,
          context := some { subject := 1, object := 2 } }).map
      (fun w => w.msglog)
      = some ["You don" ++ apos ++ "t seem to have the right key."]) ∧
    ((lock_handle lockDemoWorldOneKey
        { etype := GameEventType.ActorUnlock,
          context := some { subject := 1, object := 2 } }).bind
      (fun w => (w.locks 2).map (fun t => t.lockable.is_locked)) = some false) ∧
    ((lock_handle lockDemoWorldOneKey
        { etype := GameEventType.ActorUnlock,
          context := some { subject := 1, object := 2 } }).map
      (fun w => w.msglog)
      = some ["Your red key unlocks the door."]) := by
  refine ⟨?_, ?_, ?_, ?_⟩ <;> decide

/-- C4 fails on the code: for a vertical move whose naive target z is out
of the floor-stack bounds, the level indexing at sys.rs line 183 panics
before the bounds guard at line 187 can reject the move; here the player
stands on the only floor of the stack and presses UP. -/
theorem movement_up_out_of_bounds_panics :
    movement_handle blockedDemoWorld (GameEventType.PlayerMove Direction.UP) = none ∧
    movement_handle blockedDemoWorld (GameEventType.PlayerMove Direction.DOWN) = none := by
  constructor <;> decide

/-- C9: when `movement_system` rejects a move because the target tile is
blocked (the obstruction branch, which ends the pass with `return`), every
event still unread in that invocation's queue is left unhandled: the pass
result is exactly the state after the rejection. -/
theorem movement_rejection_stops_pass (w : MoveWorld) (ev : GameEventType)
    (w' : MoveWorld) (rest : List GameEventType)
    (h : movement_handle w ev = some (w', Flow.ret)) :
    movement_system w (ev :: rest) = some w' := by
  simp [movement_system, h]

theorem movement_rejection_stops_pass_witness :
    movement_system blockedDemoWorld
        [GameEventType.PlayerMove Direction.E, GameEventType.PlayerMove Direction.W]
      = some { blockedDemoWorld with
          msglog := ["The way East is blocked by the wall."] } :=
  movement_rejection_stops_pass blockedDemoWorld (GameEventType.PlayerMove Direction.E)
    { blockedDemoWorld with msglog := ["The way East is blocked by the wall."] }
    [GameEventType.PlayerMove Direction.W]
    (by decide)

theorem moveResolve_inl_flow (w : MoveWorld) (dir : Direction) (r : MoveWorld × Flow)
    (h : moveResolve w dir = some (Sum.inl r)) : r.2 = Flow.next := by
  unfold moveResolve at h
  dsimp only at h
  cases hz : floorAt w.levels (w.playerPos.z + (moveDelta dir).2.2) with
  | none => rw [hz] at h; simp at h
  | some flr0 =>
    rw [hz] at h
    repeat' split at h
    all_goals (try simp_all)
    all_goals (rw [← h])

/-- C3: whenever `movement_system` rejects a `PlayerMove` because the
computed target tile is blocked (the branch that ends the pass with
`return`), the mover's position, viewshed dirty flag, the mirrored
player-position resource and the map are all unchanged, and exactly one
obstruction line is narrated: it names the first non-player entity found at
the target position if one exists, and otherwise the target tile's terrain
type. -/
theorem movement_blocked_frame (w : MoveWorld) (dir : Direction) (w' : MoveWorld)
    (h : movement_handle w (GameEventType.PlayerMove dir) = some (w', Flow.ret)) :
    w'.playerPos = w.playerPos ∧ w'.playerDirty = w.playerDirty ∧
    w'.pPosnRes = w.pPosnRes ∧ w'.levels = w.levels ∧
    ∃ target tIndex tflr,
      moveResolve w dir = some (Sum.inr (target, tIndex)) ∧
      floorAt w.levels target.z = some tflr ∧
      vecGet tflr.blocked_tiles tIndex = some true ∧
      ((∃ guy, w.enties.find? (fun e => e.1 = target) = some guy ∧
          w'.msglog = tell_player w.msglog (blockedByEntityMsg dir guy.2)) ∨
       (w.enties.find? (fun e => e.1 = target) = none ∧
        ∃ t, vecGet tflr.tiles tIndex = some t ∧
          w'.msglog = tell_player w.msglog (blockedByTileMsg dir t.ttype))) := by
  unfold movement_handle at h
  dsimp only at h
  cases hres : moveResolve w dir with
  | none => rw [hres] at h; exact absurd h (by simp)
  | some sr =>
    rw [hres] at h
    cases sr with
    | inl r =>
      have hflow := moveResolve_inl_flow w dir r hres
      simp only [Option.some.injEq] at h
      rw [h] at hflow
      simp at hflow
    | inr ti =>
      obtain ⟨target, tIndex⟩ := ti
      unfold movementFinish at h
      dsimp only at h
      cases hfl : floorAt w.levels target.z with
      | none => rw [hfl] at h; exact absurd h (by simp)
      | some tflr =>
        rw [hfl] at h
        dsimp only at h
        by_cases hlen : tflr.tiles.length ≤ 1
        · rw [if_pos hlen] at h; exact absurd h (by simp)
        · rw [if_neg hlen] at h
          cases hblk : vecGet tflr.blocked_tiles tIndex with
          | none => rw [hblk] at h; exact absurd h (by simp)
          | some b =>
            rw [hblk] at h
            cases b with
            | false =>
              simp only [Bool.false_eq_true, if_false] at h
              repeat' split at h
              all_goals simp_all
            | true =>
              simp only [if_true] at h
              cases hfind : w.enties.find? (fun e => e.1 = target) with
              | some guy =>
                rw [hfind] at h
                simp only [Option.some.injEq, Prod.mk.injEq] at h
                obtain ⟨hw, -⟩ := h
                subst hw
                refine ⟨rfl, rfl, rfl, rfl, target, tIndex, tflr, rfl, hfl, hblk,
                  Or.inl ⟨guy, hfind, rfl⟩⟩
              | none =>
                rw [hfind] at h
                cases htile : vecGet tflr.tiles tIndex with
                | none => rw [htile] at h; exact absurd h (by simp)
                | some t =>
                  rw [htile] at h
                  simp only [Option.some.injEq, Prod.mk.injEq] at h
                  obtain ⟨hw, -⟩ := h
                  subst hw
                  refine ⟨rfl, rfl, rfl, rfl, target, tIndex, tflr, rfl, hfl, hblk,
                    Or.inr ⟨hfind, t, htile, rfl⟩⟩

theorem movement_blocked_frame_witness :
    (({ blockedDemoWorld with
        msglog := ["The way East is blocked by the wall."] } : MoveWorld).playerPos
      = blockedDemoWorld.playerPos) ∧
    (({ blockedDemoWorld with
        msglog := ["The way East is blocked by the wall."] } : MoveWorld).playerDirty
      = blockedDemoWorld.playerDirty) ∧
    (({ blockedDemoWorld with
        msglog := ["The way East is blocked by the wall."] } : MoveWorld).pPosnRes
      = blockedDemoWorld.pPosnRes) :=
  by
    have h := movement_blocked_frame blockedDemoWorld Direction.E
      { blockedDemoWorld with msglog := ["The way East is blocked by the wall."] }
      (by decide)
    exact ⟨h.1, h.2.1, h.2.2.1⟩

theorem lget_some_lt {α : Type} :
    ∀ (l : List α) (i : Nat) (a : α), l.get? i = some a → i < l.length := by
  intro l
  induction l with
  | nil => intro i a h; simp at h
  | cons b bs ih =>
    intro i a h
    cases i with
    | zero => simp
    | succ i =>
      simp only [List.get?_cons_succ] at h
      have := ih i a h
      simp
      omega

theorem lset_get_self {α : Type} :
    ∀ (l : List α) (i : Nat) (a : α), i < l.length → (l.set i a).get? i = some a := by
  intro l
  induction l with
  | nil => intro i a h; simp at h
  | cons b bs ih =>
    intro i a h
    cases i with
    | zero => rfl
    | succ i =>
      simp only [List.set_cons_succ, List.get?_cons_succ]
      exact ih i a (by simpa using h)

theorem lset_get_ne {α : Type} :
    ∀ (l : List α) (i j : Nat) (a : α), i ≠ j → (l.set i a).get? j = l.get? j := by
  intro l
  induction l with
  | nil => intro i j a h; simp
  | cons b bs ih =>
    intro i j a h
    cases i with
    | zero =>
      cases j with
      | zero => exact absurd rfl h
      | succ j => rfl
    | succ i =>
      cases j with
      | zero => rfl
      | succ j =>
        simp only [List.set_cons_succ, List.get?_cons_succ]
        exact ih i j a (by omega)

theorem lset_get_true {l : List Bool} {i j : Nat} (h : l.get? i = some true) :
    (l.set j true).get? i = some true := by
  by_cases hij : j = i
  · subst hij
    exact lset_get_self l j true (lget_some_lt l j true h)
  · rw [lset_get_ne l j i true hij]
    exact h

theorem foldSet_preserves (f : Point → Nat) :
    ∀ (pts : List Point) (acc : List Bool) (i : Nat),
      acc.get? i = some true →
      (pts.foldl (fun a p => a.set (f p) true) acc).get? i = some true := by
  intro pts
  induction pts with
  | nil => intro acc i h; simpa using h
  | cons p ps ih =>
    intro acc i h
    rw [List.foldl_cons]
    exact ih _ _ (lset_get_true h)

theorem foldSet_length (f : Point → Nat) :
    ∀ (pts : List Point) (acc : List Bool),
      (pts.foldl (fun a p => a.set (f p) true) acc).length = acc.length := by
  intro pts
  induction pts with
  | nil => intro acc; rfl
  | cons p ps ih =>
    intro acc
    rw [List.foldl_cons, ih, List.length_set]

theorem foldSet_covers (f : Point → Nat) :
    ∀ (pts : List Point) (acc : List Bool) (p : Point),
      p ∈ pts → f p < acc.length →
      (pts.foldl (fun a q => a.set (f q) true) acc).get? (f p) = some true := by
  intro pts
  induction pts with
  | nil => intro acc p hp; simp at hp
  | cons q qs ih =>
    intro acc p hp hlt
    rw [List.foldl_cons]
    rcases List.mem_cons.mp hp with rfl | hp'
    · exact foldSet_preserves f qs _ _ (lset_get_self acc (f p) true hlt)
    · exact ih _ p hp' (by rwa [List.length_set])

theorem markRevealed_preserves (map : Floor) (pts : List Point) (i : Nat)
    (h : map.revealed_tiles.get? i = some true) :
    (markRevealed map pts).get? i = some true := by
  unfold markRevealed
  exact foldSet_preserves (fun p => (map.to_index p.x p.y).toNat) pts _ i h

theorem markRevealed_length (map : Floor) (pts : List Point) :
    (markRevealed map pts).length = map.revealed_tiles.length := by
  unfold markRevealed
  exact foldSet_length (fun p => (map.to_index p.x p.y).toNat) pts _

theorem markRevealed_covers (map : Floor) (pts : List Point) (p : Point)
    (hp : p ∈ pts)
    (hlt : (map.to_index p.x p.y).toNat < map.revealed_tiles.length) :
    (markRevealed map pts).get? (map.to_index p.x p.y).toNat = some true := by
  unfold markRevealed
  exact foldSet_covers (fun q => (map.to_index q.x q.y).toNat) pts _ p hp hlt

theorem to_index_toNat_lt (map : Floor) (p : Point)
    (hx0 : 0 ≤ p.x) (hxw : p.x < map.width)
    (hy0 : 0 ≤ p.y) (hyh : p.y < map.height) :
    (map.to_index p.x p.y).toNat < (map.width * map.height).toNat := by
  unfold Floor.to_index
  have hw : 0 < map.width := by omega
  have hyw : p.y * map.width ≤ (map.height - 1) * map.width :=
    mul_le_mul_of_nonneg_right (by omega) (by omega)
  have hprod : (map.height - 1) * map.width = map.height * map.width - map.width := by
    ring
  have hcomm : map.height * map.width = map.width * map.height := by ring
  have h0 : 0 ≤ p.y * map.width := mul_nonneg hy0 (le_of_lt hw)
  have h1 : p.y * map.width + p.x < map.width * map.height := by omega
  have h2 : 0 ≤ p.y * map.width + p.x := by omega
  omega

theorem fovClip_bounds (map : Floor) (pts : List Point) (p : Point)
    (h : p ∈ fovClip map pts) :
    0 ≤ p.x ∧ p.x < map.width ∧ 0 ≤ p.y ∧ p.y < map.height := by
  unfold fovClip at h
  have h2 := (List.mem_filter.mp h).2
  simpa using h2

theorem floorAt_eq_get (flrs : List Floor) (z : Int) (f : Floor)
    (h : floorAt flrs z = some f) :
    0 ≤ z ∧ flrs.get? z.toNat = some f := by
  unfold floorAt at h
  split at h
  · exact absurd h (by simp)
  · exact ⟨by omega, h⟩

theorem updateSeer_player_eq (fov : Position → Int → Floor → List Point)
    (flrs : List Floor) (s : Seer) (map : Floor)
    (hd : s.dirty = true) (hp : s.isPlayer = true)
    (hfl : floorAt flrs s.pos.z = some map) :
    updateSeer fov flrs s
      = some (flrs.set s.pos.z.toNat
                ({ map with revealed_tiles :=
                    markRevealed map (fovClip map (fov s.pos s.range map)) }),
              { s with visible_tiles := fovClip map (fov s.pos s.range map),
                       dirty := false }) := by
  obtain ⟨hz0, -⟩ := floorAt_eq_get flrs s.pos.z map hfl
  unfold updateSeer
  rw [hd, hfl]
  simp only [if_true]
  rw [if_neg (by omega), hp]
  simp

theorem updateSeer_nonplayer_eq (fov : Position → Int → Floor → List Point)
    (flrs : List Floor) (s : Seer) (map : Floor)
    (hd : s.dirty = true) (hp : s.isPlayer = false)
    (hfl : floorAt flrs s.pos.z = some map) :
    updateSeer fov flrs s
      = some (flrs,
              { s with visible_tiles := fovClip map (fov s.pos s.range map),
                       dirty := false }) := by
  obtain ⟨hz0, -⟩ := floorAt_eq_get flrs s.pos.z map hfl
  unfold updateSeer
  rw [hd, hfl]
  simp only [if_true]
  rw [if_neg (by omega), hp]
  simp

theorem updateSeer_shape (fov : Position → Int → Floor → List Point)
    (flrs : List Floor) (s : Seer) (flrs' : List Floor) (s' : Seer)
    (h : updateSeer fov flrs s = some (flrs', s')) (fi : Nat) :
    (flrs'.get? fi).map floorShape = (flrs.get? fi).map floorShape := by
  unfold updateSeer at h
  split at h
  · split at h
    · exact absurd h (by simp)
    · cases hfl : floorAt flrs s.pos.z with
      | none => rw [hfl] at h; exact absurd h (by simp)
      | some map =>
        rw [hfl] at h
        dsimp only at h
        split at h
        · simp only [Option.some.injEq, Prod.mk.injEq] at h
          obtain ⟨hf, -⟩ := h
          subst hf
          obtain ⟨hz0, hget⟩ := floorAt_eq_get flrs s.pos.z map hfl
          by_cases hfi : s.pos.z.toNat = fi
          · subst hfi
            rw [lset_get_self _ _ _ (lget_some_lt _ _ _ hget), hget]
            simp [floorShape, markRevealed_length]
          · rw [lset_get_ne _ _ _ _ hfi]
        · simp only [Option.some.injEq, Prod.mk.injEq] at h
          obtain ⟨hf, -⟩ := h
          subst hf
          rfl
  · simp only [Option.some.injEq, Prod.mk.injEq] at h
    obtain ⟨hf, -⟩ := h
    subst hf
    rfl

theorem updateSeer_mono (fov : Position → Int → Floor → List Point)
    (flrs : List Floor) (s : Seer) (flrs' : List Floor) (s' : Seer)
    (h : updateSeer fov flrs s = some (flrs', s')) (fi ti : Nat)
    (hrev : revealedBit flrs fi ti = some true) :
    revealedBit flrs' fi ti = some true := by
  unfold updateSeer at h
  split at h
  · split at h
    · exact absurd h (by simp)
    · cases hfl : floorAt flrs s.pos.z with
      | none => rw [hfl] at h; exact absurd h (by simp)
      | some map =>
        rw [hfl] at h
        dsimp only at h
        split at h
        · simp only [Option.some.injEq, Prod.mk.injEq] at h
          obtain ⟨hf, -⟩ := h
          subst hf
          obtain ⟨hz0, hget⟩ := floorAt_eq_get flrs s.pos.z map hfl
          unfold revealedBit at hrev ⊢
          by_cases hfi : s.pos.z.toNat = fi
          · subst hfi
            rw [lset_get_self _ _ _ (lget_some_lt _ _ _ hget)]
            rw [hget] at hrev
            exact markRevealed_preserves map _ ti hrev
          · rw [lset_get_ne _ _ _ _ hfi]
            exact hrev
        · simp only [Option.some.injEq, Prod.mk.injEq] at h
          obtain ⟨hf, -⟩ := h
          subst hf
          exact hrev
  · simp only [Option.some.injEq, Prod.mk.injEq] at h
    obtain ⟨hf, -⟩ := h
    subst hf
    exact hrev

theorem updateSeer_nonplayer_levels (fov : Position → Int → Floor → List Point)
    (flrs : List Floor) (s : Seer) (flrs' : List Floor) (s' : Seer)
    (h : updateSeer fov flrs s = some (flrs', s')) (hnp : s.isPlayer = false) :
    flrs' = flrs := by
  unfold updateSeer at h
  split at h
  · split at h
    · exact absurd h (by simp)
    · cases hfl : floorAt flrs s.pos.z with
      | none => rw [hfl] at h; exact absurd h (by simp)
      | some map =>
        rw [hfl] at h
        dsimp only at h
        rw [hnp] at h
        simp only [Bool.false_eq_true, if_false, Option.some.injEq, Prod.mk.injEq] at h
        exact h.1.symm
  · simp only [Option.some.injEq, Prod.mk.injEq] at h
    exact h.1.symm

theorem visRun_mono (fov : Position → Int → Floor → List Point) :
    ∀ (ss : List Seer) (flrs flrs2 : List Floor) (ss2 : List Seer),
      visRun fov flrs ss = some (flrs2, ss2) →
      ∀ fi ti, revealedBit flrs fi ti = some true →
        revealedBit flrs2 fi ti = some true := by
  intro ss
  induction ss with
  | nil =>
    intro flrs flrs2 ss2 h fi ti hrev
    unfold visRun at h
    simp only [Option.some.injEq, Prod.mk.injEq] at h
    rw [← h.1]
    exact hrev
  | cons s rest ih =>
    intro flrs flrs2 ss2 h fi ti hrev
    unfold visRun at h
    cases hu : updateSeer fov flrs s with
    | none => rw [hu] at h; exact absurd h (by simp)
    | some r =>
      obtain ⟨flrs1, s1⟩ := r
      rw [hu] at h
      dsimp only at h
      cases hr : visRun fov flrs1 rest with
      | none => rw [hr] at h; exact absurd h (by simp)
      | some r2 =>
        obtain ⟨flrsF, restF⟩ := r2
        rw [hr] at h
        simp only [Option.some.injEq, Prod.mk.injEq] at h
        obtain ⟨hf, -⟩ := h
        subst hf
        exact ih flrs1 _ _ hr fi ti
          (updateSeer_mono fov flrs s flrs1 s1 hu fi ti hrev)

theorem visRun_shape (fov : Position → Int → Floor → List Point) :
    ∀ (ss : List Seer) (flrs flrs2 : List Floor) (ss2 : List Seer),
      visRun fov flrs ss = some (flrs2, ss2) →
      ∀ fi, (flrs2.get? fi).map floorShape = (flrs.get? fi).map floorShape := by
  intro ss
  induction ss with
  | nil =>
    intro flrs flrs2 ss2 h fi
    unfold visRun at h
    simp only [Option.some.injEq, Prod.mk.injEq] at h
    rw [← h.1]
  | cons s rest ih =>
    intro flrs flrs2 ss2 h fi
    unfold visRun at h
    cases hu : updateSeer fov flrs s with
    | none => rw [hu] at h; exact absurd h (by simp)
    | some r =>
      obtain ⟨flrs1, s1⟩ := r
      rw [hu] at h
      dsimp only at h
      cases hr : visRun fov flrs1 rest with
      | none => rw [hr] at h; exact absurd h (by simp)
      | some r2 =>
        obtain ⟨flrsF, restF⟩ := r2
        rw [hr] at h
        simp only [Option.some.injEq, Prod.mk.injEq] at h
        obtain ⟨hf, -⟩ := h
        subst hf
        rw [ih flrs1 _ _ hr fi]
        exact updateSeer_shape fov flrs s flrs1 s1 hu fi

theorem visRun_nonplayer_levels (fov : Position → Int → Floor → List Point) :
    ∀ (ss : List Seer) (flrs flrs2 : List Floor) (ss2 : List Seer),
      visRun fov flrs ss = some (flrs2, ss2) →
      (∀ s ∈ ss, s.isPlayer = false) → flrs2 = flrs := by
  intro ss
  induction ss with
  | nil =>
    intro flrs flrs2 ss2 h hnp
    unfold visRun at h
    simp only [Option.some.injEq, Prod.mk.injEq] at h
    exact h.1.symm
  | cons s rest ih =>
    intro flrs flrs2 ss2 h hnp
    unfold visRun at h
    cases hu : updateSeer fov flrs s with
    | none => rw [hu] at h; exact absurd h (by simp)
    | some r =>
      obtain ⟨flrs1, s1⟩ := r
      rw [hu] at h
      dsimp only at h
      cases hr : visRun fov flrs1 rest with
      | none => rw [hr] at h; exact absurd h (by simp)
      | some r2 =>
        obtain ⟨flrsF, restF⟩ := r2
        rw [hr] at h
        simp only [Option.some.injEq, Prod.mk.injEq] at h
        obtain ⟨hf, -⟩ := h
        subst hf
        have h1 : flrs1 = flrs :=
          updateSeer_nonplayer_levels fov flrs s flrs1 s1 hu
            (hnp s (List.mem_cons_self s rest))
        subst h1
        exact ih flrs1 _ _ hr (fun x hx => hnp x (List.mem_cons_of_mem s hx))

theorem visRun_covers (fov : Position → Int → Floor → List Point) :
    ∀ (ss : List Seer) (flrs flrs2 : List Floor) (ss2 : List Seer),
      visRun fov flrs ss = some (flrs2, ss2) →
      ∀ k s, ss.get? k = some s → s.isPlayer = true → s.dirty = true →
      ∀ map, floorAt flrs s.pos.z = some map → wfFloor map →
      ∃ s', ss2.get? k = some s' ∧
        ∀ p ∈ s'.visible_tiles,
          revealedBit flrs2 s.pos.z.toNat (map.to_index p.x p.y).toNat
            = some true := by
  intro ss
  induction ss with
  | nil => intro flrs flrs2 ss2 h k s hk; simp at hk
  | cons s0 rest ih =>
    intro flrs flrs2 ss2 h k s hk hp hd map hmap hwf
    unfold visRun at h
    cases hu : updateSeer fov flrs s0 with
    | none => rw [hu] at h; exact absurd h (by simp)
    | some r =>
      obtain ⟨flrs1, s1⟩ := r
      rw [hu] at h
      dsimp only at h
      cases hr : visRun fov flrs1 rest with
      | none => rw [hr] at h; exact absurd h (by simp)
      | some r2 =>
        obtain ⟨flrsF, restF⟩ := r2
        rw [hr] at h
        simp only [Option.some.injEq, Prod.mk.injEq] at h
        obtain ⟨hf, hs⟩ := h
        subst hf
        subst hs
        cases k with
        | zero =>
          simp only [List.get?_cons_zero, Option.some.injEq] at hk
          subst hk
          have heq := updateSeer_player_eq fov flrs s0 map hd hp hmap
          rw [heq] at hu
          simp only [Option.some.injEq, Prod.mk.injEq] at hu
          obtain ⟨hflrs1, hs1⟩ := hu
          refine ⟨s1, rfl, ?_⟩
          intro p hpv
          rw [← hs1] at hpv
          simp only at hpv
          obtain ⟨hz0, hget⟩ := floorAt_eq_get flrs s0.pos.z map hmap
          have hcov1 :
              revealedBit flrs1 s0.pos.z.toNat (map.to_index p.x p.y).toNat
                = some true := by
            rw [← hflrs1]
            unfold revealedBit
            rw [lset_get_self _ _ _ (lget_some_lt _ _ _ hget)]
            obtain ⟨hx0, hxw, hy0, hyh⟩ := fovClip_bounds map _ p hpv
            have hlt : (map.to_index p.x p.y).toNat < map.revealed_tiles.length := by
              rw [hwf]
              exact to_index_toNat_lt map p hx0 hxw hy0 hyh
            exact markRevealed_covers map _ p hpv hlt
          exact visRun_mono fov rest flrs1 flrsF restF hr _ _ hcov1
        | succ k =>
          simp only [List.get?_cons_succ] at hk
          have hshape := updateSeer_shape fov flrs s0 flrs1 s1 hu s.pos.z.toNat
          obtain ⟨hz0, hget⟩ := floorAt_eq_get flrs s.pos.z map hmap
          rw [hget] at hshape
          obtain ⟨map1, hget1, hshape1⟩ := Option.map_eq_some'.mp hshape
          have hfl1 : floorAt flrs1 s.pos.z = some map1 := by
            unfold floorAt
            rw [if_neg (by omega)]
            exact hget1
          have hww : map1.width = map.width := congrArg (fun t => t.1) hshape1
          have hhh : map1.height = map.height := congrArg (fun t => t.2.1) hshape1
          have hll : map1.revealed_tiles.length = map.revealed_tiles.length :=
            congrArg (fun t => t.2.2) hshape1
          have hwf1 : wfFloor map1 := by
            unfold wfFloor at hwf ⊢
            rw [hll, hww, hhh]
            exact hwf
          obtain ⟨s', hs', hcov⟩ := ih flrs1 flrsF restF hr k s hk hp hd map1 hfl1 hwf1
          refine ⟨s', by simpa using hs', ?_⟩
          intro p hpv
          have hidx : map.to_index p.x p.y = map1.to_index p.x p.y := by
            unfold Floor.to_index
            rw [hww]
          rw [hidx]
          exact hcov p hpv

/-- `indexFloor` never touches the revealed bitmap. -/
theorem indexFold_revealed (step : Floor → Position → Floor)
    (hstep : ∀ acc p, (step acc p).revealed_tiles = acc.revealed_tiles) :
    ∀ (bs : List Position) (acc : Floor),
      (bs.foldl step acc).revealed_tiles = acc.revealed_tiles := by
  intro bs
  induction bs with
  | nil => intro acc; rfl
  | cons b bs ih =>
    intro acc
    rw [List.foldl_cons, ih, hstep]

theorem indexFloor_revealed (blockers : List Position) (z : Int) (f : Floor) :
    (indexFloor blockers z f).revealed_tiles = f.revealed_tiles := by
  unfold indexFloor
  rw [indexFold_revealed _ ?_ blockers (update_tilemaps f)]
  · rfl
  · intro acc p
    by_cases hz : p.z = z <;> simp [hz]

theorem map_indexing_go_revealed (blockers : List Position) :
    ∀ (levels : List Floor) (z : Int) (fi ti : Nat),
      revealedBit (map_indexing_go blockers z levels) fi ti
        = revealedBit levels fi ti := by
  intro levels
  induction levels with
  | nil => intro z fi ti; rfl
  | cons f rest ih =>
    intro z fi ti
    cases fi with
    | zero =>
      unfold map_indexing_go revealedBit
      simp only [List.get?_cons_zero]
      rw [indexFloor_revealed]
    | succ fi =>
      unfold map_indexing_go revealedBit
      simp only [List.get?_cons_succ]
      exact ih (z + 1) fi ti

/-- C5: visibility recompute is monotone — a revealed tile stays revealed;
after a pass, every tile in a dirty player seer's recomputed visible list is
revealed on that seer's floor; a pass over only non-player seers leaves the
map stack (hence the revealed bitmaps) untouched; and the per-tick map
indexing rebuild never changes a revealed bit. -/
theorem visibility_revealed_monotone (fov : Position → Int → Floor → List Point)
    (w w' : VisWorld) (h : visibility_system fov w = some w') :
    (∀ fi ti, revealedBit w.levels fi ti = some true →
      revealedBit w'.levels fi ti = some true) ∧
    (∀ k s, w.seers.get? k = some s → s.isPlayer = true → s.dirty = true →
      ∀ map, floorAt w.levels s.pos.z = some map → wfFloor map →
      ∃ s', w'.seers.get? k = some s' ∧
        ∀ p ∈ s'.visible_tiles,
          revealedBit w'.levels s.pos.z.toNat (map.to_index p.x p.y).toNat
            = some true) ∧
    ((∀ s ∈ w.seers, s.isPlayer = false) → w'.levels = w.levels) ∧
    (∀ blockers fi ti,
      revealedBit (map_indexing_system blockers w.levels) fi ti
        = revealedBit w.levels fi ti) := by
  unfold visibility_system at h
  cases hr : visRun fov w.levels w.seers with
  | none => rw [hr] at h; exact absurd h (by simp)
  | some r =>
    obtain ⟨flrs, ss⟩ := r
    rw [hr] at h
    simp only [Option.some.injEq] at h
    subst h
    refine ⟨?_, ?_, ?_, ?_⟩
    · intro fi ti hrev
      exact visRun_mono fov w.seers w.levels flrs ss hr fi ti hrev
    · intro k s hk hp hd map hmap hwf
      exact visRun_covers fov w.seers w.levels flrs ss hr k s hk hp hd map hmap hwf
    · intro hnp
      exact visRun_nonplayer_levels fov w.seers w.levels flrs ss hr hnp
    · intro blockers fi ti
      exact map_indexing_go_revealed blockers w.levels 0 fi ti

theorem visibility_revealed_monotone_witness :
    revealedBit visDemoWorldAfter.levels 0 0 = some true ∧
    (∃ s', visDemoWorldAfter.seers.get? 0 = some s' ∧
      ∀ p ∈ s'.visible_tiles,
        revealedBit visDemoWorldAfter.levels 0
          (visDemoFloor.to_index p.x p.y).toNat = some true) ∧
    visDemoWorldNpcAfter.levels = visDemoWorldNpc.levels ∧
    revealedBit
        (map_indexing_system [{ x := 0, y := 0, z := 0 }] visDemoWorld.levels) 0 0
      = revealedBit visDemoWorld.levels 0 0 := by
  have h := visibility_revealed_monotone demoFov visDemoWorld visDemoWorldAfter
    (by decide)
  have h2 := visibility_revealed_monotone demoFov visDemoWorldNpc visDemoWorldNpcAfter
    (by decide)
  refine ⟨h.1 0 0 (by decide), ?_, h2.2.2.1 (by decide), h.2.2.2 [{ x := 0, y := 0, z := 0 }] 0 0⟩
  exact h.2.1 0
    { visible_tiles := [], range := 8, dirty := true,
      pos := { x := 0, y := 0, z := 0 }, isPlayer := true }
    rfl rfl rfl visDemoFloor (by decide) rfl

end Spacegame
